import Mathlib

/-!
# Verification of the mika tracker core (shallow embedding)

This file embeds the parts of the mika BitTorrent tracker that the verified
claims talk about:

* `src/peer.go` — the `Peer` struct, `Peer.Update`, `IsHNR`, `makeCompactPeers`,
  `IsValidClient`;
* `src/store/torrent.go` — `PeerHash` / `InfoHash` codecs, `WhiteListClient.Match`,
  and the legacy `GetPeers` (package `main` section of that file);
* `src/metrics/metrics.go` — the announce counter snapshot `Get`.

Go machine integers are embedded as `Nat` (unsigned) or `Int` (signed) with
explicit reduction modulo `2^w` exactly where Go's fixed-width arithmetic
wraps.  Fallible Go functions returning `(T, error)` are embedded as
`Option`-returning functions.  Floating point speed fields (`SpeedUP`,
`SpeedDN`, `SpeedUPMax`, `SpeedDNMax` and the `estSpeed` call, peer.go lines
66-73) are omitted: no claim mentions them and they do not influence any other
field of `Update`.
-/

namespace Mika

/-- `2^64`, the modulus of Go's `uint64` arithmetic. -/
def U64 : Nat := 18446744073709551616

/-- `2^32`, the modulus of Go's `uint32` arithmetic. -/
def U32 : Nat := 4294967296

/-- Go `uint64` subtraction `a - b`: wraps modulo `2^64` (Go spec: unsigned
integer overflow wraps around). -/
def sub64 (a b : Nat) : Nat := (a % U64 + (U64 - b % U64)) % U64

/-- Reduce an integer into the `int32` range `[-2^31, 2^31)`, the result of a
Go `int32` arithmetic operation. -/
def wrap32 (x : Int) : Int := (x + 2147483648) % 4294967296 - 2147483648

/-- Go conversion `uint64(x)` of a signed value `x`: two's-complement
reinterpretation modulo `2^64` (negative `x` becomes `2^64 + x`). -/
def toU64 (x : Int) : Nat := (x % (18446744073709551616 : Int)).toNat

/-- The `Peer` struct of `src/peer.go` lines 13-41.  `uploaded`, `downloaded`,
`corrupt`, `port`, `left`, `announces`, `userID`, `torrentID` are Go `uint64`
(embedded as `Nat`, kept `< 2^64` by the operations); `totalTime` is `uint32`;
`announceLast` / `announceFirst` are `int32` (embedded as `Int`).  The float
speed fields and the redis key strings (`KeyPeer`, `KeyUser*`) are omitted:
no embedded operation or claim reads them. -/
structure Peer where
  uploaded : Nat
  downloaded : Nat
  corrupt : Nat
  ip : String
  port : Nat
  left : Nat
  announces : Nat
  totalTime : Nat
  announceLast : Int
  announceFirst : Int
  new : Bool
  peerID : String
  active : Bool
  username : String
  userID : Nat
  torrentID : Nat
deriving Repr, DecidableEq

/-- The zero value of the Go `Peer` struct: what `make([]Peer, n)` fills its
slots with. -/
def peerZero : Peer :=
  { uploaded := 0, downloaded := 0, corrupt := 0, ip := "", port := 0
    left := 0, announces := 0, totalTime := 0, announceLast := 0
    announceFirst := 0, new := false, peerID := "", active := false
    username := "", userID := 0, torrentID := 0 }

/-- The announce fields `Peer.Update` reads.  The `AnnounceRequest` struct
itself is not under `src/`; its fields here are exactly those dereferenced by
`Update` (peer.go lines 48-65), with types forced by the assignments to the
`Peer` fields, and `ipv4Str` standing for the string `announce.IPv4.String()`
(the `net.IP` rendered in dotted-quad form for an IPv4 address). -/
structure AnnounceRequest where
  peerID : String
  uploaded : Nat
  downloaded : Nat
  corrupt : Nat
  left : Nat
  port : Nat
  ipv4Str : String
deriving Repr, DecidableEq

/-- `Peer.Update` (src/peer.go lines 44-84).  Returns the updated peer and the
pair `(ul, dl)` the Go function returns.  `annInterval` is
`config.AnnInterval`, `now` the value of `unixtime()` (an `int32` Unix
timestamp; the Go body calls `unixtime()` twice, at lines 47 and 77, which in
this sequential model is the same instant).  Note that `ul` and `dl` are Go
`uint64` values, so `announce.Uploaded - peer.Uploaded` wraps modulo `2^64`
and the subsequent `if ul < 0` test is on an unsigned value, exactly as in the
source. -/
def peerUpdate (annInterval : Nat) (now : Int) (peer : Peer)
    (announce : AnnounceRequest) : Peer × Nat × Nat :=
  let ul0 := sub64 announce.uploaded peer.uploaded
  let dl0 := sub64 announce.downloaded peer.downloaded
  let ul := if ul0 < 0 then 0 else ul0
  let dl := if dl0 < 0 then 0 else dl0
  let p1 : Peer := { peer with
    peerID := announce.peerID
    announces := (peer.announces + 1) % U64
    uploaded := announce.uploaded % U64
    downloaded := announce.downloaded % U64
    ip := announce.ipv4Str
    port := announce.port
    corrupt := announce.corrupt
    left := announce.left }
  let p2 : Peer :=
    if p1.active = true ∧ 0 < p1.announceLast then
      let timeDiff := toU64 (wrap32 (now - p1.announceLast))
      if timeDiff < (annInterval * 4) % U64 then
        { p1 with totalTime := (p1.totalTime + timeDiff % U32) % U32 }
      else p1
    else p1
  (p2, ul, dl)

/-- `Peer.IsHNR` (src/peer.go lines 121-123):
`peer.Left > 0 && peer.AnnounceFirst-unixtime() > config.HNRThreshold`.
`hnrThreshold` is `config.HNRThreshold`, `now` the value of `unixtime()`; the
subtraction is `int32` arithmetic. -/
def isHNR (hnrThreshold : Int) (now : Int) (peer : Peer) : Bool :=
  decide (peer.left > 0) && decide (wrap32 (peer.announceFirst - now) > hnrThreshold)

/-- `Peer.IsSeeder` (src/peer.go lines 125-127). -/
def isSeeder (peer : Peer) : Bool := decide (peer.left = 0)

/-! ## `net.ParseIP(s).To4()` and `makeCompactPeers` (src/peer.go lines 134-151) -/

/-- Split a character list at every `'.'`, the field decomposition used by
Go's IPv4 literal parser. -/
def splitDots : List Char → List (List Char)
  | [] => [[]]
  | c :: rest =>
    let r := splitDots rest
    if c = '.' then [] :: r
    else
      match r with
      | [] => [[c]]
      | h :: t => (c :: h) :: t

/-- One dotted-quad field, as Go's `dtoi` accepts it inside `parseV4`: a
non-empty run of decimal digits whose value is at most 255. -/
def ipFieldVal (cs : List Char) : Option Nat :=
  if cs = [] then none
  else if cs.all (fun c => decide ('0' ≤ c) && decide (c ≤ '9')) then
    let n := cs.foldl (fun acc c => acc * 10 + (c.toNat - 48)) 0
    if n ≤ 255 then some n else none
  else none

/-- `net.ParseIP(s).To4()`: the 4 address bytes when `s` is a dotted-quad IPv4
literal, `none` (Go: a nil slice) otherwise.  Go additionally maps the
IPv4-in-IPv6 form `::ffff:a.b.c.d` to 4 bytes; the stored `peer.IP` strings
relevant here are produced by `announce.IPv4.String()` or are invalid, so only
the dotted-quad branch of the Go parser is embedded. -/
def parseIPv4 (s : String) : Option (List Nat) :=
  match (splitDots s.data).mapM ipFieldVal with
  | some [a, b, c, d] => some [a, b, c, d]
  | _ => none

/-- One iteration of the `makeCompactPeers` loop body (src/peer.go lines
138-149): skip peers with `Port <= 0` (a `uint64`, so only port 0) and the
requesting peer's own id, then append `net.ParseIP(peer.IP).To4()` — a
`bytes.Buffer.Write` of a nil slice appends nothing — and the two big-endian
port bytes `byte(Port >> 8)`, `byte(Port & 0xff)`. -/
def mcpStep (skipId : String) (buf : List Nat) (p : Peer) : List Nat :=
  if p.port ≤ 0 then buf
  else if p.peerID = skipId then buf
  else buf ++ ((parseIPv4 p.ip).getD []) ++ [p.port / 256 % 256, p.port % 256]

/-- `makeCompactPeers` (src/peer.go lines 136-151), as the byte list the
`bytes.Buffer` holds at the end of the loop. -/
def makeCompactPeers (peers : List Peer) (skipId : String) : List Nat :=
  peers.foldl (mcpStep skipId) []

/-! ## Whitelist gate (src/peer.go lines 198-208, src/store/torrent.go 210-212) -/

/-- Go `strings.HasPrefix(s, pre)`: byte-for-byte (here char-for-char, which
coincides on the UTF-8 encodings) test that `pre` starts `s`. -/
def strStarts (s pre : String) : Bool := List.isPrefixOf pre.data s.data

/-- `IsValidClient` (src/peer.go lines 198-208): scan the `whitelist` slice of
client prefixes and accept on the first `strings.HasPrefix(peer_id, client_prefix)`
hit; reject when the loop falls through. -/
def isValidClient (whitelist : List String) (peerId : String) : Bool :=
  whitelist.any (fun cp => strStarts peerId cp)

/-- `WhiteListClient` (src/store/torrent.go lines 204-207); `clientPfx` embeds
the `ClientPrefix` field. -/
structure WhiteListClient where
  clientPfx : String
  clientName : String
deriving Repr, DecidableEq

/-- `WhiteListClient.Match` (src/store/torrent.go lines 210-212):
`strings.HasPrefix(client, wl.ClientPrefix)`. -/
def wlMatch (wl : WhiteListClient) (client : String) : Bool :=
  strStarts client wl.clientPfx

/-! ## Metrics snapshot (src/metrics/metrics.go lines 154-205, counter part) -/

/-- The process-wide atomic counters of `src/metrics/metrics.go` lines 56-68
(the announce/cache counter subset; `AnnounceExecTimesNs` and the Go runtime
memory statistics are not read by any claim).  All are Go `int64`. -/
structure MetricsState where
  torrentsTotalCached : Int
  peersTotalCached : Int
  usersTotalCached : Int
  announceTotal : Int
  announceStatusOK : Int
  announceStatusUnauthorized : Int
  announceStatusInvalidInfoHash : Int
  announceStatusMalformed : Int
deriving Repr, DecidableEq

/-- The counter fields of `RuntimeMetrics` (src/metrics/metrics.go lines
92-101) that `Get` fills from the atomic counters. -/
structure RuntimeMetrics where
  torrentsTotalCached : Int
  usersTotalCached : Int
  peersTotalCached : Int
  announceTotal : Int
  announceStatusOK : Int
  announceStatusUnauthorized : Int
  announceStatusInvalidInfoHash : Int
  announceStatusMalformed : Int
deriving Repr, DecidableEq

/-- `metrics.Get` (src/metrics/metrics.go lines 154-205), restricted to the
counter fields: the three cache counters are read with `atomic.LoadInt64`
(state unchanged), the five `Announce*` counters with
`atomic.SwapInt64(&X, 0)` (snapshot the old value, store zero).  Returns the
snapshot and the state after the read. -/
def metricsGet (s : MetricsState) : RuntimeMetrics × MetricsState :=
  ({ torrentsTotalCached := s.torrentsTotalCached
     usersTotalCached := s.usersTotalCached
     peersTotalCached := s.peersTotalCached
     announceTotal := s.announceTotal
     announceStatusOK := s.announceStatusOK
     announceStatusUnauthorized := s.announceStatusUnauthorized
     announceStatusInvalidInfoHash := s.announceStatusInvalidInfoHash
     announceStatusMalformed := s.announceStatusMalformed },
   { s with
     announceTotal := 0
     announceStatusOK := 0
     announceStatusUnauthorized := 0
     announceStatusInvalidInfoHash := 0
     announceStatusMalformed := 0 })

/-- `metrics.AnnounceTotal++`-style increment performed on the announce path
(an `atomic.AddInt64(&AnnounceTotal, 1)` by callers outside `src/`). -/
def annTotalIncr (s : MetricsState) : MetricsState :=
  { s with announceTotal := s.announceTotal + 1 }

/-! ## Legacy `GetPeers` (src/store/torrent.go lines 687-725, package main) -/

/-- `GetPeers` (src/store/torrent.go lines 687-725), abstracted over redis:
`smembersOk` is whether the `SMEMBERS`/`redis.Strings` steps succeed (on
failure the Go function returns `nil`), `peerIds` the stored peer-id set for
the torrent, and `replies i` the outcome of the `i`-th `Receive`+`makePeer`
pair (`none` when either errors, in which case the Go loop only logs).
Mirrors the source exactly: `known_peers` is truncated to `max_peers`, the
result slice is allocated with `make([]Peer, known_peers)` — `known_peers`
zero-value peers — and each successfully fetched peer is then `append`ed. -/
def getPeers (smembersOk : Bool) (peerIds : List String)
    (replies : Nat → Option Peer) (maxPeers : Nat) : List Peer :=
  if smembersOk = false then []
  else
    let known := if peerIds.length > maxPeers then maxPeers else peerIds.length
    (List.range known).foldl
      (fun acc i =>
        match replies i with
        | some p => acc ++ [p]
        | none => acc)
      (List.replicate known peerZero)

/-! ## InfoHash / PeerHash codecs (src/store/torrent.go lines 13-119) -/

/-- Go `encoding/hex.fromHexChar`: value of one hex digit, accepting
`0-9`, `a-f`, `A-F`. -/
def fromHexChar (c : Char) : Option Nat :=
  if '0' ≤ c ∧ c ≤ '9' then some (c.toNat - 48)
  else if 'a' ≤ c ∧ c ≤ 'f' then some (c.toNat - 97 + 10)
  else if 'A' ≤ c ∧ c ≤ 'F' then some (c.toNat - 65 + 10)
  else none

/-- Go `encoding/hex.DecodeString` on a character list: consume two hex digits
per output byte, failing on a non-digit or on odd length. -/
def hexDecodeChars : List Char → Option (List Nat)
  | [] => some []
  | [_] => none
  | a :: b :: rest =>
    match fromHexChar a, fromHexChar b, hexDecodeChars rest with
    | some x, some y, some r => some ((x * 16 + y) :: r)
    | _, _, _ => none

/-- An `InfoHash` value (`[20]byte`, src/store/torrent.go line 44) embedded as
its byte list; theorems carry `length = 20` and `< 256` as hypotheses. -/
abbrev InfoHashBytes := List Nat

/-- `InfoHashFromHex` (src/store/torrent.go lines 53-63): reject unless the
length is 40, then `hex.DecodeString` and copy the 20 decoded bytes.  Errors
(`consts.ErrInvalidInfoHash`, hex decode errors) collapse to `none`.  Go
measures `len(h)` in bytes; for the hex-digit strings the claim quantifies
over, bytes and characters coincide. -/
def infoHashFromHex (h : String) : Option InfoHashBytes :=
  if h.data.length ≠ 40 then none
  else hexDecodeChars h.data

/-- The lowercase hex digit for a value `< 16`, as Go's `%x` verb prints. -/
def toHexDigit (n : Nat) : Char :=
  if n < 10 then Char.ofNat (48 + n) else Char.ofNat (97 + (n - 10))

/-- Two lowercase hex digits for one byte, as `fmt.Sprintf("%x", …)` renders
each byte of a byte array. -/
def byteToHex (b : Nat) : List Char := [toHexDigit (b / 16), toHexDigit (b % 16)]

/-- `InfoHash.String` (src/store/torrent.go lines 112-114):
`fmt.Sprintf("%x", ih[:])`, the base-16 lowercase rendering, two digits per
byte. -/
def infoHashString (ih : InfoHashBytes) : String :=
  ⟨(ih.map byteToHex).flatten⟩

/-- `NewPeerHash` (src/store/torrent.go lines 17-22): the 40-byte buffer with
the info-hash copied into bytes 0-19 and the peer id into bytes 20-39.  For
the length-20 inputs Go's `[20]byte` types guarantee, the two `copy` calls
produce exactly the concatenation. -/
def newPeerHash (ih pid : List Nat) : List Nat := ih ++ pid

/-- `PeerHash.InfoHash` (src/store/torrent.go lines 25-29): copy of the first
20 bytes. -/
def peerHashInfoHash (ph : List Nat) : List Nat := ph.take 20

/-- `PeerHash.PeerID` (src/store/torrent.go lines 37-41): copy of bytes 20-39
into a fresh `[20]byte`. -/
def peerHashPeerID (ph : List Nat) : List Nat := (ph.drop 20).take 20

/-! ## Concrete inputs used by counterexamples and witnesses -/

/-- A stored peer with uploaded/downloaded counters at 10. -/
def peerC1 : Peer := { peerZero with uploaded := 10, downloaded := 10 }

/-- An announce reporting counters below the stored ones (client reset). -/
def annC1 : AnnounceRequest :=
  { peerID := "p", uploaded := 5, downloaded := 5, corrupt := 0, left := 0
    port := 1, ipv4Str := "1.2.3.4" }

/-- A leecher whose first announce (time 0) lies in the past. -/
def peerC4 : Peer := { peerZero with left := 1, announceFirst := 0 }

/-- An included peer (port 80, not skipped) whose stored IP is not a valid
IPv4 address. -/
def badPeerC2 : Peer := { peerZero with port := 80, peerID := "p1", ip := "" }

/-- An included peer with a valid dotted-quad IP. -/
def goodPeerC2 : Peer := { peerZero with port := 80, peerID := "p1", ip := "1.2.3.4" }

/-- The all-zero metrics counter state. -/
def metricsZero : MetricsState :=
  { torrentsTotalCached := 0, peersTotalCached := 0, usersTotalCached := 0
    announceTotal := 0, announceStatusOK := 0, announceStatusUnauthorized := 0
    announceStatusInvalidInfoHash := 0, announceStatusMalformed := 0 }

/-- An active peer with a previous announce at time 10 and 7 accumulated
seconds. -/
def peerC7 : Peer := { peerZero with active := true, announceLast := 10, totalTime := 7 }

/-! ## C1 -/

/-- C1: refuted on the code.  `Peer.Update` computes the deltas with `uint64`
subtraction, so when the announce reports a counter smaller than the stored
value the delta wraps around to `2^64 - 5` instead of the claimed
`max(0, announce.uploaded - peer.uploaded) = 0`: the `if ul < 0` clamp in the
source is dead code on an unsigned type.  Evaluated at the failing input
(stored counters 10, announced counters 5). -/
theorem peerUpdate_delta_wraps :
    (peerUpdate 1800 1000 peerC1 annC1).2.1 = 18446744073709551611 ∧
      (peerUpdate 1800 1000 peerC1 annC1).2.2 = 18446744073709551611 ∧
      annC1.uploaded < peerC1.uploaded ∧ annC1.downloaded < peerC1.downloaded := by
  decide

/-! ## C3 -/

/-- C3, counterexample: the stored `peer.Uploaded` is not monotonic — the same
counter-reset announce as C1 overwrites the stored 10 with the announced 5. -/
theorem peerUpdate_uploaded_decreases :
    (peerUpdate 1800 1000 peerC1 annC1).1.uploaded = 5 ∧ peerC1.uploaded = 10 ∧
      ¬ peerC1.uploaded ≤ (peerUpdate 1800 1000 peerC1 annC1).1.uploaded := by
  decide

/-- C3, amended: after every `Peer.Update` the stored `Uploaded` and
`Downloaded` fields equal the announce's reported totals (reduced into the
`uint64` range); they are overwritten, not clamped, and so decrease whenever
the client reports a smaller counter.  Only the returned deltas are (meant to
be) clamped. -/
theorem peerUpdate_overwrites_totals (annInterval : Nat) (now : Int) (p : Peer)
    (a : AnnounceRequest) :
    (peerUpdate annInterval now p a).1.uploaded = a.uploaded % U64 ∧
      (peerUpdate annInterval now p a).1.downloaded = a.downloaded % U64 := by
  simp only [peerUpdate]
  split
  · split <;> exact ⟨rfl, rfl⟩
  · exact ⟨rfl, rfl⟩

/-! ## C4 -/

/-- C4: refuted on the code (`IsHNR` is right of the claim, the code is the
slip).  `IsHNR` computes `AnnounceFirst - now`, the negation of the claimed
swarm time `now - AnnounceFirst`: for a leecher whose time in the swarm (101)
exceeds the threshold (100) the claim demands `true`, yet the function
returns `false` (for any non-negative threshold it can essentially never
return `true`). -/
theorem isHNR_wrong_sign :
    isHNR 100 101 peerC4 = false ∧ peerC4.left > 0 ∧
      (101 : Int) - peerC4.announceFirst > 100 := by
  decide

/-! ## C5 -/

/-- C5, counterexample: `metrics.Get` zeroes `AnnounceTotal` too.  After a
single announce increment, the first read returns 1 but the immediately
following read returns 0, refuting the claim that `ann_total` is a cumulative
counter not zeroed by the read. -/
theorem metricsGet_annTotal_reset_cex :
    (metricsGet (annTotalIncr metricsZero)).1.announceTotal = 1 ∧
      (metricsGet (metricsGet (annTotalIncr metricsZero)).2).1.announceTotal = 0 ∧
      ¬ (metricsGet (metricsGet (annTotalIncr metricsZero)).2).1.announceTotal = 1 := by
  decide

/-- C5, amended: `metrics.Get` returns the pre-read values of all counters and
swaps *all five* `ann_*` counters — `ann_total` included — to zero, while the
three cache counters are only loaded and survive the read; hence a second
consecutive read observes zero for every `ann_*` counter. -/
theorem metricsGet_counters (s : MetricsState) :
    ((metricsGet s).1.announceTotal = s.announceTotal ∧
      (metricsGet s).1.announceStatusOK = s.announceStatusOK ∧
      (metricsGet s).1.announceStatusUnauthorized = s.announceStatusUnauthorized ∧
      (metricsGet s).1.announceStatusInvalidInfoHash = s.announceStatusInvalidInfoHash ∧
      (metricsGet s).1.announceStatusMalformed = s.announceStatusMalformed ∧
      (metricsGet s).1.torrentsTotalCached = s.torrentsTotalCached ∧
      (metricsGet s).1.peersTotalCached = s.peersTotalCached ∧
      (metricsGet s).1.usersTotalCached = s.usersTotalCached) ∧
    ((metricsGet s).2.announceTotal = 0 ∧
      (metricsGet s).2.announceStatusOK = 0 ∧
      (metricsGet s).2.announceStatusUnauthorized = 0 ∧
      (metricsGet s).2.announceStatusInvalidInfoHash = 0 ∧
      (metricsGet s).2.announceStatusMalformed = 0 ∧
      (metricsGet s).2.torrentsTotalCached = s.torrentsTotalCached ∧
      (metricsGet s).2.peersTotalCached = s.peersTotalCached ∧
      (metricsGet s).2.usersTotalCached = s.usersTotalCached) ∧
    (metricsGet (metricsGet s).2).1.announceTotal = 0 := by
  exact ⟨⟨rfl, rfl, rfl, rfl, rfl, rfl, rfl, rfl⟩,
    ⟨rfl, rfl, rfl, rfl, rfl, rfl, rfl, rfl⟩, rfl⟩

/-! ## C6 -/

/-- C6: refuted on the code.  `GetPeers` allocates `make([]Peer, known_peers)`
and then `append`s every fetched peer, so with `max_peers = 1`, one stored
peer id and a successful reply it returns 2 entries (one zero-value peer plus
the fetched one), exceeding the claimed `max_peers` bound.  (The zero-value
entries are the `0`-port peers the `FIXME` in `makeCompactPeers` puzzles
over.) -/
theorem getPeers_exceeds_max :
    (getPeers true ["a"] (fun _ => some peerZero) 1).length = 2 ∧
      ¬ (getPeers true ["a"] (fun _ => some peerZero) 1).length ≤ 1 := by
  decide

/-! ## C2 -/

/-- A successful `parseIPv4` always yields exactly the 4 address bytes. -/
theorem parseIPv4_length {s : String} {l : List Nat} (h : parseIPv4 s = some l) :
    l.length = 4 := by
  unfold parseIPv4 at h
  split at h
  · cases h; rfl
  · cases h

/-- One `makeCompactPeers` iteration leaves the buffer alone or, when the
peer's IP parses, extends it by exactly 6 bytes. -/
theorem mcpStep_length (skipId : String) (buf : List Nat) (p : Peer)
    (h : (parseIPv4 p.ip).isSome = true) :
    (mcpStep skipId buf p).length = buf.length ∨
      (mcpStep skipId buf p).length = buf.length + 6 := by
  unfold mcpStep
  split
  · exact Or.inl rfl
  split
  · exact Or.inl rfl
  · obtain ⟨l, hl⟩ := Option.isSome_iff_exists.mp h
    right
    rw [hl]
    simp [List.length_append, parseIPv4_length hl]

/-- Buffer growth across the whole `makeCompactPeers` loop: `6 k` bytes for
some `k` bounded by the number of peers, provided every stored IP parses. -/
theorem mcp_len_aux (skipId : String) (l : List Peer) :
    ∀ buf : List Nat, (∀ p ∈ l, (parseIPv4 p.ip).isSome = true) →
      ∃ k, (List.foldl (mcpStep skipId) buf l).length = buf.length + 6 * k ∧
        k ≤ l.length := by
  induction l with
  | nil => exact fun buf _ => ⟨0, by simp, by simp⟩
  | cons p rest ih =>
    intro buf h
    obtain ⟨k, hk, hkle⟩ :=
      ih (mcpStep skipId buf p) (fun q hq => h q (List.mem_cons_of_mem _ hq))
    rcases mcpStep_length skipId buf p (h p (List.mem_cons_self _ _)) with he | he
    · exact ⟨k, by rw [List.foldl_cons, hk, he], by simp; omega⟩
    · exact ⟨k + 1, by rw [List.foldl_cons, hk, he]; omega, by simp; omega⟩

/-- C2, counterexample: a peer with port 80 and an unparseable stored IP is
included but `net.ParseIP("").To4()` is nil, so only the 2 port bytes are
written — the output length 2 is not a multiple of 6. -/
theorem makeCompactPeers_invalid_ip_two_bytes :
    (makeCompactPeers [badPeerC2] "x").length = 2 ∧
      ¬ 6 ∣ (makeCompactPeers [badPeerC2] "x").length := by
  decide

/-- C2, amended: when every peer in the input list stores a valid dotted-quad
IPv4 address, the `makeCompactPeers` byte string has length a multiple of 6
(4 address + 2 big-endian port bytes per included peer) and at most
`6 * (number of peers in the list)`; a peer whose stored IP does not parse
contributes only its 2 port bytes, breaking the multiple-of-6 shape, and the
claimed `6 * min(numwant, MaxPeers)` cap is the caller's bound on the list
length, not enforced here. -/
theorem makeCompactPeers_valid_len (peers : List Peer) (skipId : String)
    (h : ∀ p ∈ peers, (parseIPv4 p.ip).isSome = true) :
    6 ∣ (makeCompactPeers peers skipId).length ∧
      (makeCompactPeers peers skipId).length ≤ 6 * peers.length := by
  obtain ⟨k, hk, hkle⟩ := mcp_len_aux skipId peers [] h
  unfold makeCompactPeers
  rw [hk]
  exact ⟨⟨k, by simp⟩, by simp; omega⟩

/-- C2, witness: the amended statement applied to a one-peer list with a valid
IP. -/
theorem makeCompactPeers_valid_len_witness :
    6 ∣ (makeCompactPeers [goodPeerC2] "x").length ∧
      (makeCompactPeers [goodPeerC2] "x").length ≤ 6 * [goodPeerC2].length :=
  makeCompactPeers_valid_len [goodPeerC2] "x" (by decide)

/-! ## C8 -/

/-- C8: confirmed.  `IsValidClient` accepts exactly when some whitelist entry
is a character-for-character starting segment of the peer id (so the empty
whitelist rejects every peer id), and `WhiteListClient.Match` is the same
single-entry test. -/
theorem whitelist_gate_spec (wl : List String) (peerId : String)
    (w : WhiteListClient) (client : String) :
    (isValidClient wl peerId = true ↔ ∃ cp ∈ wl, cp.data <+: peerId.data) ∧
      isValidClient [] peerId = false ∧
      (wlMatch w client = true ↔ w.clientPfx.data <+: client.data) := by
  refine ⟨?_, rfl, List.isPrefixOf_iff_prefix⟩
  unfold isValidClient strStarts
  rw [List.any_eq_true]
  constructor
  · rintro ⟨cp, hm, hp⟩
    exact ⟨cp, hm, List.isPrefixOf_iff_prefix.mp hp⟩
  · rintro ⟨cp, hm, hp⟩
    exact ⟨cp, hm, List.isPrefixOf_iff_prefix.mpr hp⟩

/-! ## C10 -/

/-- C10: confirmed.  For 20-byte inputs, `NewPeerHash` concatenates and the
two projections return exactly the original info-hash and peer id. -/
theorem peerHash_proj (ih pid : List Nat) (h1 : ih.length = 20)
    (h2 : pid.length = 20) :
    peerHashInfoHash (newPeerHash ih pid) = ih ∧
      peerHashPeerID (newPeerHash ih pid) = pid := by
  constructor
  · unfold peerHashInfoHash newPeerHash
    rw [← h1, List.take_left]
  · unfold peerHashPeerID newPeerHash
    nth_rewrite 2 [← h1]
    rw [List.drop_left, ← h2, List.take_length]

/-- C10, witness: the projections at concrete 20-byte values. -/
theorem peerHash_proj_witness :
    peerHashInfoHash (newPeerHash (List.range 20) (List.map (20 + ·) (List.range 20))) =
        List.range 20 ∧
      peerHashPeerID (newPeerHash (List.range 20) (List.map (20 + ·) (List.range 20))) =
        List.map (20 + ·) (List.range 20) :=
  peerHash_proj (List.range 20) (List.map (20 + ·) (List.range 20)) (by decide) (by decide)

/-! ## C9 -/

/-- Decoding inverts the lowercase digit table on values `< 16`. -/
theorem fromHexChar_toHexDigit : ∀ n < 16, fromHexChar (toHexDigit n) = some n := by
  decide

/-- Even-length all-hex character lists decode successfully. -/
theorem hexDecode_isSome : ∀ l : List Char, l.length % 2 = 0 →
    (∀ c ∈ l, (fromHexChar c).isSome = true) → (hexDecodeChars l).isSome = true
  | [], _, _ => rfl
  | [a], h, _ => by simp at h
  | a :: b :: rest, h, hall => by
    obtain ⟨x, hx⟩ := Option.isSome_iff_exists.mp (hall a (by simp))
    obtain ⟨y, hy⟩ := Option.isSome_iff_exists.mp (hall b (by simp))
    have hlen : rest.length % 2 = 0 := by simp [List.length_cons] at h; omega
    have hrec := hexDecode_isSome rest hlen (fun c hc => hall c (by simp [hc]))
    obtain ⟨r, hr⟩ := Option.isSome_iff_exists.mp hrec
    simp [hexDecodeChars, hx, hy, hr]

/-- Decoding the two-digit rendering of a byte list recovers the bytes. -/
theorem hexDecode_encode : ∀ l : List Nat, (∀ b ∈ l, b < 256) →
    hexDecodeChars ((l.map byteToHex).flatten) = some l
  | [], _ => rfl
  | b :: rest, h => by
    have hb : b < 256 := h b (List.mem_cons_self _ _)
    have hrec := hexDecode_encode rest (fun x hx => h x (List.mem_cons_of_mem _ hx))
    have h1 : fromHexChar (toHexDigit (b / 16)) = some (b / 16) :=
      fromHexChar_toHexDigit _ (by omega)
    have h2 : fromHexChar (toHexDigit (b % 16)) = some (b % 16) :=
      fromHexChar_toHexDigit _ (by omega)
    simp only [List.map_cons, List.flatten_cons, byteToHex, List.cons_append,
      List.nil_append, hexDecodeChars, h1, h2]
    rw [show hexDecodeChars (([] : List Char).append ((List.map byteToHex rest).flatten))
        = hexDecodeChars ((List.map byteToHex rest).flatten) from rfl, hrec]
    show some ((b / 16 * 16 + b % 16) :: rest) = some (b :: rest)
    rw [show b / 16 * 16 + b % 16 = b from by omega]

/-- The hex string of a byte list has two characters per byte. -/
theorem hexChars_length : ∀ l : List Nat, ((l.map byteToHex).flatten).length = 2 * l.length
  | [] => rfl
  | b :: rest => by
    simp only [List.map_cons, List.flatten_cons, byteToHex, List.cons_append,
      List.nil_append, List.length_cons, hexChars_length rest]
    omega

/-- C9: confirmed.  Every 40-character string of hexadecimal digits is
accepted by `InfoHashFromHex`, and decoding the lowercase base-16 `String`
form of a 20-byte info-hash returns exactly that info-hash. -/
theorem infoHash_hex_roundtrip (s : String) (h1 : s.data.length = 40)
    (h2 : ∀ c ∈ s.data, (fromHexChar c).isSome = true)
    (ih : InfoHashBytes) (h3 : ih.length = 20) (h4 : ∀ b ∈ ih, b < 256) :
    (infoHashFromHex s).isSome = true ∧
      infoHashFromHex (infoHashString ih) = some ih := by
  constructor
  · unfold infoHashFromHex
    rw [if_neg (by omega)]
    exact hexDecode_isSome s.data (by omega) h2
  · unfold infoHashFromHex infoHashString
    have hd : (String.mk ((ih.map byteToHex).flatten)).data = (ih.map byteToHex).flatten := rfl
    rw [hd, hexChars_length, if_neg (by omega)]
    exact hexDecode_encode ih h4

/-- C9, witness: the round trip at a concrete hex string and a concrete
20-byte info-hash. -/
theorem infoHash_hex_roundtrip_witness :
    (infoHashFromHex "0102030405060708090a0b0c0d0e0f1011121314").isSome = true ∧
      infoHashFromHex (infoHashString
        [1, 2, 3, 4, 5, 6, 7, 8, 9, 10, 11, 12, 13, 14, 15, 16, 17, 18, 19, 20]) =
        some [1, 2, 3, 4, 5, 6, 7, 8, 9, 10, 11, 12, 13, 14, 15, 16, 17, 18, 19, 20] :=
  infoHash_hex_roundtrip "0102030405060708090a0b0c0d0e0f1011121314" (by decide) (by decide)
    [1, 2, 3, 4, 5, 6, 7, 8, 9, 10, 11, 12, 13, 14, 15, 16, 17, 18, 19, 20]
    (by decide) (by decide)

/-! ## C7 -/

/-- Closed form of the `TotalTime` field after `Peer.Update` (peer.go lines
75-82): only the active/previous-announce branch can change it. -/
theorem peerUpdate_totalTime_eq (annInterval : Nat) (now : Int) (p : Peer)
    (a : AnnounceRequest) :
    (peerUpdate annInterval now p a).1.totalTime =
      if p.active = true ∧ 0 < p.announceLast then
        if toU64 (wrap32 (now - p.announceLast)) < (annInterval * 4) % U64 then
          (p.totalTime + toU64 (wrap32 (now - p.announceLast)) % U32) % U32
        else p.totalTime
      else p.totalTime := by
  simp only [peerUpdate]
  split
  · split <;> rfl
  · rfl

/-- C7, counterexample: at the boundary `Δt = 4 * ann_interval` (here
`Δt = 410 - 10 = 400 = 4 * 100`) the source's strict `<` test skips the
update, while the claim ("unchanged only when `Δt ≤ 0` or
`Δt > 4 * ann_interval`, otherwise add `min(Δt, 4 * ann_interval)`") would add
400. -/
theorem peerUpdate_totalTime_boundary_cex :
    (peerUpdate 100 410 peerC7 annC1).1.totalTime = 7 ∧
      ¬ (peerUpdate 100 410 peerC7 annC1).1.totalTime = peerC7.totalTime + 400 := by
  decide

/-- C7, amended: for an active peer with a positive previous announce
timestamp (within `int32` range, with a realistic interval and no `uint32`
overflow of the accumulated time), `Peer.Update` adds `Δt` to `TotalTime`
exactly when `0 < Δt < 4 * ann_interval`, and leaves it unchanged when
`Δt ≤ 0` or `Δt ≥ 4 * ann_interval` — the boundary `Δt = 4 * ann_interval`
is treated as idle, unlike the claim's strict `>`. -/
theorem peerUpdate_totalTime_spec (annInterval : Nat) (now : Int) (p : Peer)
    (a : AnnounceRequest) (hact : p.active = true) (hlast : 0 < p.announceLast)
    (hlo : -2147483648 ≤ now - p.announceLast)
    (hhi : now - p.announceLast < 2147483648)
    (hI : annInterval * 4 < 2147483648)
    (hTT : p.totalTime + annInterval * 4 < 4294967296) :
    (0 < now - p.announceLast ∧ now - p.announceLast < ((annInterval * 4 : Nat) : Int) →
      (peerUpdate annInterval now p a).1.totalTime =
        p.totalTime + (now - p.announceLast).toNat) ∧
    (now - p.announceLast ≤ 0 ∨ ((annInterval * 4 : Nat) : Int) ≤ now - p.announceLast →
      (peerUpdate annInterval now p a).1.totalTime = p.totalTime) := by
  rw [and_comm]
  constructor
  · intro h
    rcases h with h | h <;>
      · rw [peerUpdate_totalTime_eq, if_pos ⟨hact, hlast⟩]
        simp only [toU64, wrap32, U64, U32]
        split <;> omega
  · rintro ⟨h1, h2⟩
    rw [peerUpdate_totalTime_eq, if_pos ⟨hact, hlast⟩]
    simp only [toU64, wrap32, U64, U32]
    split <;> omega

/-- C7, witness: the amended statement applied to an active peer with
`Δt = 50` and `ann_interval = 100`: `TotalTime` grows from 7 to 57. -/
theorem peerUpdate_totalTime_spec_witness :
    (peerUpdate 100 60 peerC7 annC1).1.totalTime =
      peerC7.totalTime + ((60 : Int) - peerC7.announceLast).toNat :=
  (peerUpdate_totalTime_spec 100 60 peerC7 annC1 (by decide) (by decide) (by decide)
    (by decide) (by decide) (by decide)).1 (by decide)

end Mika
